import Mathlib

/-!
Verification of the content-addressing core of `oss-server`
(`src/controller/oss.rs`): the bincode record codec, the MD5 fingerprint,
the get-before-put dedup store adapter, and the two HTTP handlers
`store_record` and `get_record_by_key`, shallowly embedded over byte lists.
Bytes are `Nat`s (< 256 where well-formedness matters); Rust `String`s are
their UTF-8 byte sequences; the wickdb store is an association list with
explicit fault injection for I/O errors.
-/

namespace OssServer

/-- Little-endian 8-byte encoding of a `u64`, as bincode's legacy
fixed-int configuration (used by `bincode::serialize`) writes lengths. -/
def u64le (n : Nat) : List Nat :=
  [n % 256, n / 256 % 256, n / 65536 % 256, n / 16777216 % 256,
   n / 4294967296 % 256, n / 1099511627776 % 256,
   n / 281474976710656 % 256, n / 72057594037927936 % 256]

/-- Read a little-endian `u64` (8 bytes) from the front of a byte stream. -/
def readU64 : List Nat → Option (Nat × List Nat)
  | b0 :: b1 :: b2 :: b3 :: b4 :: b5 :: b6 :: b7 :: rest =>
      some (b0 + 256 * (b1 + 256 * (b2 + 256 * (b3 + 256 * (b4 + 256 *
            (b5 + 256 * (b6 + 256 * b7)))))), rest)
  | _ => none

/-- Read exactly `n` bytes from the front of a byte stream. -/
def readBytes (n : Nat) (l : List Nat) : Option (List Nat × List Nat) :=
  if n ≤ l.length then some (l.take n, l.drop n) else none

/-- Continuation byte of a UTF-8 sequence: `0x80..=0xBF`. -/
def utf8Cont (b : Nat) : Bool := 128 ≤ b && b ≤ 191

/-- UTF-8 validity, fuelled: each step consumes one multi-byte sequence
(one to four bytes) and one unit of fuel, so any fuel at least the list
length gives the true answer.  The byte ranges are exactly those of
`core::str::from_utf8`. -/
def utf8ValidFuel : Nat → List Nat → Bool
  | _, [] => true
  | 0, _ :: _ => false
  | fuel + 1, b0 :: t =>
    if b0 ≤ 127 then utf8ValidFuel fuel t
    else if b0 ≤ 193 then false
    else if b0 ≤ 223 then
      match t with
      | b1 :: t1 => utf8Cont b1 && utf8ValidFuel fuel t1
      | [] => false
    else if b0 ≤ 239 then
      match t with
      | b1 :: b2 :: t2 =>
        (if b0 = 224 then 160 ≤ b1 && b1 ≤ 191
         else if b0 = 237 then 128 ≤ b1 && b1 ≤ 159
         else utf8Cont b1) && utf8Cont b2 && utf8ValidFuel fuel t2
      | _ => false
    else if b0 ≤ 244 then
      match t with
      | b1 :: b2 :: b3 :: t3 =>
        (if b0 = 240 then 144 ≤ b1 && b1 ≤ 191
         else if b0 = 244 then 128 ≤ b1 && b1 ≤ 143
         else utf8Cont b1) && utf8Cont b2 && utf8Cont b3 && utf8ValidFuel fuel t3
      | _ => false
    else false

/-- UTF-8 validity of a byte sequence, as `core::str::from_utf8` checks it
(which bincode uses when deserializing a Rust `String`). -/
def utf8Valid (l : List Nat) : Bool := utf8ValidFuel l.length l

/-- The persisted record (`OssRecordStore` in `controller/oss.rs`):
`origin_name`/`origin_type` are Rust `Option<String>` (held here as the
strings' UTF-8 byte sequences), `content_data` is `Option<Vec<u8>>`. -/
structure OssRecordStore where
  origin_name : Option (List Nat)
  origin_type : Option (List Nat)
  content_data : Option (List Nat)
deriving DecidableEq

/-- bincode legacy encoding of a length-prefixed byte container
(`String` or `Vec<u8>`): `u64` little-endian length, then the bytes. -/
def encBytes (b : List Nat) : List Nat := u64le b.length ++ b

/-- bincode encoding of an `Option` of a length-prefixed byte container:
one tag byte (0 = `None`, 1 = `Some`) followed by the payload. -/
def encOptBytes : Option (List Nat) → List Nat
  | none => [0]
  | some b => 1 :: encBytes b

/-- `bincode::serialize(&OssRecordStore)` (line 234 of `oss.rs`): the three
fields in declaration order, each as an option of a length-prefixed
container. -/
def serialize (r : OssRecordStore) : List Nat :=
  encOptBytes r.origin_name ++ (encOptBytes r.origin_type ++ encOptBytes r.content_data)

/-- bincode deserialization of a Rust `String`: `u64` length, that many
bytes, which must be valid UTF-8. -/
def readString (l : List Nat) : Option (List Nat × List Nat) :=
  match readU64 l with
  | some (n, r) =>
    match readBytes n r with
    | some (b, r2) => if utf8Valid b then some (b, r2) else none
    | none => none
  | none => none

/-- bincode deserialization of a `Vec<u8>`: `u64` length, that many bytes. -/
def readVecU8 (l : List Nat) : Option (List Nat × List Nat) :=
  match readU64 l with
  | some (n, r) => readBytes n r
  | none => none

/-- bincode deserialization of an `Option`: tag byte 0 is `None`, 1 is
`Some`, any other tag is an `InvalidTagEncoding` error. -/
def readOptField (readElem : List Nat → Option (List Nat × List Nat)) :
    List Nat → Option (Option (List Nat) × List Nat)
  | 0 :: rest => some (none, rest)
  | 1 :: rest =>
    match readElem rest with
    | some (v, r) => some (some v, r)
    | none => none
  | _ => none

/-- `bincode::deserialize::<OssRecordStore>` (line 122 of `oss.rs`): the
three fields in order; the legacy configuration allows trailing bytes. -/
def deserialize (l : List Nat) : Option OssRecordStore :=
  match readOptField readString l with
  | none => none
  | some (nm, r1) =>
    match readOptField readString r1 with
    | none => none
    | some (ty, r2) =>
      match readOptField readVecU8 r2 with
      | none => none
      | some (cd, _) => some ⟨nm, ty, cd⟩

/-- Well-formedness of a record as a Rust value: present strings are valid
UTF-8, and container lengths fit in a `u64` (true of any Rust `Vec`). -/
def recWF (r : OssRecordStore) : Bool :=
  (match r.origin_name with
   | none => true
   | some s => utf8Valid s && s.length < 18446744073709551616) &&
  (match r.origin_type with
   | none => true
   | some s => utf8Valid s && s.length < 18446744073709551616) &&
  (match r.content_data with
   | none => true
   | some b => b.length < 18446744073709551616)

/-! ### MD5 (`md5::compute`, line 236 of `oss.rs`)
Standard MD5 over byte lists; 32-bit words are `Nat`s reduced `% 2^32`. -/

/-- The 64 MD5 round constants `K[i] = floor(2^32 * |sin(i+1)|)`. -/
def md5K : List Nat :=
  [0xd76aa478, 0xe8c7b756, 0x242070db, 0xc1bdceee,
   0xf57c0faf, 0x4787c62a, 0xa8304613, 0xfd469501,
   0x698098d8, 0x8b44f7af, 0xffff5bb1, 0x895cd7be,
   0x6b901122, 0xfd987193, 0xa679438e, 0x49b40821,
   0xf61e2562, 0xc040b340, 0x265e5a51, 0xe9b6c7aa,
   0xd62f105d, 0x02441453, 0xd8a1e681, 0xe7d3fbc8,
   0x21e1cde6, 0xc33707d6, 0xf4d50d87, 0x455a14ed,
   0xa9e3e905, 0xfcefa3f8, 0x676f02d9, 0x8d2a4c8a,
   0xfffa3942, 0x8771f681, 0x6d9d6122, 0xfde5380c,
   0xa4beea44, 0x4bdecfa9, 0xf6bb4b60, 0xbebfbc70,
   0x289b7ec6, 0xeaa127fa, 0xd4ef3085, 0x04881d05,
   0xd9d4d039, 0xe6db99e5, 0x1fa27cf8, 0xc4ac5665,
   0xf4292244, 0x432aff97, 0xab9423a7, 0xfc93a039,
   0x655b59c3, 0x8f0ccc92, 0xffeff47d, 0x85845dd1,
   0x6fa87e4f, 0xfe2ce6e0, 0xa3014314, 0x4e0811a1,
   0xf7537e82, 0xbd3af235, 0x2ad7d2bb, 0xeb86d391]

/-- The 64 MD5 per-round left-rotation amounts. -/
def md5S : List Nat :=
  [7, 12, 17, 22, 7, 12, 17, 22, 7, 12, 17, 22, 7, 12, 17, 22,
   5, 9, 14, 20, 5, 9, 14, 20, 5, 9, 14, 20, 5, 9, 14, 20,
   4, 11, 16, 23, 4, 11, 16, 23, 4, 11, 16, 23, 4, 11, 16, 23,
   6, 10, 15, 21, 6, 10, 15, 21, 6, 10, 15, 21, 6, 10, 15, 21]

/-- Left rotation of a 32-bit word (`x < 2^32`). -/
def rotl32 (x n : Nat) : Nat := (x * 2 ^ n + x / 2 ^ (32 - n)) % 4294967296

/-- The four MD5 bitwise mixing functions; complement is XOR with
`0xFFFFFFFF` on 32-bit words. -/
def md5F (b c d : Nat) : Nat := (b &&& c) ||| ((4294967295 ^^^ b) &&& d)

def md5G (b c d : Nat) : Nat := (d &&& b) ||| ((4294967295 ^^^ d) &&& c)

def md5H (b c d : Nat) : Nat := b ^^^ c ^^^ d

def md5I (b c d : Nat) : Nat := c ^^^ (b ||| (4294967295 ^^^ d))

/-- Internal MD5 state: four 32-bit words. -/
structure MD5State where
  a : Nat
  b : Nat
  c : Nat
  d : Nat
deriving DecidableEq

/-- One MD5 round `i` (0 ≤ i < 64) on message words `m` (16 words). -/
def md5Round (m : List Nat) (st : MD5State) (i : Nat) : MD5State :=
  let f :=
    if i < 16 then md5F st.b st.c st.d
    else if i < 32 then md5G st.b st.c st.d
    else if i < 48 then md5H st.b st.c st.d
    else md5I st.b st.c st.d
  let g :=
    if i < 16 then i
    else if i < 32 then (5 * i + 1) % 16
    else if i < 48 then (3 * i + 5) % 16
    else (7 * i) % 16
  let f := (f + st.a + md5K.getD i 0 + m.getD g 0) % 4294967296
  ⟨st.d, (st.b + rotl32 f (md5S.getD i 0)) % 4294967296, st.b, st.c⟩

/-- Group bytes into 32-bit words, little-endian, four bytes per word. -/
def bytesToWords : List Nat → List Nat
  | b0 :: b1 :: b2 :: b3 :: rest =>
      (b0 + 256 * b1 + 65536 * b2 + 16777216 * b3) :: bytesToWords rest
  | _ => []

/-- One 64-byte chunk: 64 rounds, then add into the running state. -/
def md5ProcessChunk (st : MD5State) (chunk : List Nat) : MD5State :=
  let m := bytesToWords chunk
  let r := (List.range 64).foldl (md5Round m) st
  ⟨(st.a + r.a) % 4294967296, (st.b + r.b) % 4294967296,
   (st.c + r.c) % 4294967296, (st.d + r.d) % 4294967296⟩

/-- Process `n` chunks of 64 bytes from the front of `bytes`. -/
def md5Chunks : Nat → MD5State → List Nat → MD5State
  | 0, st, _ => st
  | n + 1, st, bytes =>
      md5Chunks n (md5ProcessChunk st (bytes.take 64)) (bytes.drop 64)

/-- MD5 padding: a `0x80` byte, zeros to 56 mod 64, then the bit length
as a little-endian `u64`. -/
def md5Pad (msg : List Nat) : List Nat :=
  msg ++ 128 :: List.replicate ((119 - msg.length % 64) % 64) 0 ++
    u64le (msg.length * 8)

/-- Serialize a 32-bit word to four little-endian bytes. -/
def wordLE (w : Nat) : List Nat :=
  [w % 256, w / 256 % 256, w / 65536 % 256, w / 16777216 % 256]

/-- `md5::compute`: pad, process chunks from the standard initial state,
output the four state words little-endian (16 bytes). -/
def md5Compute (msg : List Nat) : List Nat :=
  let padded := md5Pad msg
  let st := md5Chunks (padded.length / 64)
    ⟨0x67452301, 0xefcdab89, 0x98badcfe, 0x10325476⟩ padded
  wordLE st.a ++ wordLE st.b ++ wordLE st.c ++ wordLE st.d

/-- Lowercase hexadecimal digit for `n < 16`. -/
def hexDigitLower (n : Nat) : Char :=
  if n < 10 then Char.ofNat (48 + n) else Char.ofNat (87 + n)

/-- `format!("{:x}", digest)`: each byte as two lowercase hex digits. -/
def hexOfBytes : List Nat → List Char
  | [] => []
  | b :: rest => hexDigitLower (b / 16) :: hexDigitLower (b % 16) :: hexOfBytes rest

/-- One hex digit's value; `hex::decode` accepts both cases. -/
def hexDigitToNat (c : Char) : Option Nat :=
  if 48 ≤ c.toNat ∧ c.toNat ≤ 57 then some (c.toNat - 48)
  else if 97 ≤ c.toNat ∧ c.toNat ≤ 102 then some (c.toNat - 87)
  else if 65 ≤ c.toNat ∧ c.toNat ≤ 70 then some (c.toNat - 55)
  else none

/-- `hex::decode`: pairs of hex digits to bytes; odd length or a non-hex
character is an error. No length-16 check is performed anywhere. -/
def hexDecode : List Char → Option (List Nat)
  | [] => some []
  | [_] => none
  | c1 :: c2 :: rest =>
    match hexDigitToNat c1, hexDigitToNat c2, hexDecode rest with
    | some h, some l, some r => some ((h * 16 + l) :: r)
    | _, _, _ => none

/-! ### The wickdb store and the two handlers -/

/-- The external key-value store: an association list of raw key/value
byte strings (wickdb keeps one value per key). -/
abbrev Db := List (List Nat × List Nat)

/-- Point read (`db.get`): value of the first entry with the given key. -/
def dbLookup : Db → List Nat → Option (List Nat)
  | [], _ => none
  | (k, v) :: rest, key => if k = key then some v else dbLookup rest key

/-- Write (`db.put`): replace the entry for the key, or append a new one. -/
def dbInsert : Db → List Nat → List Nat → Db
  | [], key, val => [(key, val)]
  | (k, v) :: rest, key, val =>
    if k = key then (key, val) :: rest else (k, v) :: dbInsert rest key val

/-- Number of entries stored under a key. -/
def dbCount (db : Db) (key : List Nat) : Nat :=
  (db.filter (fun e => e.1 = key)).length

/-- Fault injection for the store's I/O: whether `get` and `put` return
`Err` on this call. -/
structure Faults where
  getFails : Bool
  putFails : Bool
deriving DecidableEq

/-- The fault-free store. -/
def noFaults : Faults := ⟨false, false⟩

/-- `HeaderValue::to_str` byte validity: visible ASCII (32..=126) or tab. -/
def headerToStrOk (v : List Nat) : Bool :=
  v.all (fun b => b == 9 || (32 ≤ b && b ≤ 126))

/-- `HeaderValue::from_str` byte validity: tab, or any byte ≥ 32 other
than 127 (bytes ≥ 128 are permitted). -/
def headerFromStrOk (v : List Nat) : Bool :=
  v.all (fun b => b == 9 || (32 ≤ b && b != 127))

/-- `HeaderValue::to_str`: the same bytes when all are valid, else `Err`. -/
def to_str (v : List Nat) : Option (List Nat) :=
  if headerToStrOk v then some v else none

/-- `usize::from_str` on the decimal digits of a header value: an optional
leading `+`, then one or more ASCII digits, value below `2^64`. -/
def parseUsizeBytes (s : List Nat) : Option Nat :=
  let digits := match s with
    | 43 :: rest => rest
    | _ => s
  if digits = [] then none
  else if digits.all (fun b => 48 ≤ b && b ≤ 57) then
    let n := digits.foldl (fun a b => a * 10 + (b - 48)) 0
    if n < 18446744073709551616 then some n else none
  else none

/-- Lines 150-160 of `oss.rs`: the `content-length` header is looked up,
converted with `to_str`, and parsed as `usize`; any failure leaves
`header_found = false`. -/
def parseContentLength (h : Option (List Nat)) : Option Nat :=
  match h with
  | none => none
  | some v =>
    match to_str v with
    | some s => parseUsizeBytes s
    | none => none

/-- The request headers `store_record` reads. -/
structure StoreHeaders where
  contentLength : Option (List Nat)
  originName : Option (List Nat)
  originType : Option (List Nat)

/-- The body of the JSON response `store_record` produces: an error
response, a success response carrying the hex fingerprint, or a panic
(an unguarded `unwrap` in the handler). -/
inductive StoreOutcome where
  | errResp (msg : String)
  | okResp (key : List Char)
  | panicked
deriving DecidableEq

/-- One operation issued against the store, for observing read/write
behaviour. -/
inductive DbOp where
  | readOp (k : List Nat)
  | writeOp (k v : List Nat)
deriving DecidableEq

/-- Whether an operation is a write. -/
def DbOp.isWrite : DbOp → Bool
  | .writeOp _ _ => true
  | .readOp _ => false

/-- Result of one `store_record` call: the response, the store afterwards,
and the store operations issued. -/
structure StoreStep where
  outcome : StoreOutcome
  db : Db
  trace : List DbOp
deriving DecidableEq

/-- Lines 238-293 of `oss.rs`: get-before-put on the MD5 of the encoding.
A failed read is `"get error"` with no write attempted; a hit skips the
write; a miss writes, and a failed write is `"put error"` leaving the
store unchanged; otherwise the hex fingerprint is returned. -/
def dedupPut (f : Faults) (db : Db) (enc : List Nat) : StoreStep :=
  let fp := md5Compute enc
  if f.getFails then ⟨.errResp "get error", db, [.readOp fp]⟩
  else
    match dbLookup db fp with
    | some _ => ⟨.okResp (hexOfBytes fp), db, [.readOp fp]⟩
    | none =>
      if f.putFails then
        ⟨.errResp "put error", db, [.readOp fp, .writeOp fp enc]⟩
      else
        ⟨.okResp (hexOfBytes fp), dbInsert db fp enc,
         [.readOp fp, .writeOp fp enc]⟩

/-- Lines 195-210 of `oss.rs`: an origin header, when present, goes
through `to_str().unwrap()` — invalid bytes panic. -/
def originHeaderValue : Option (List Nat) → Except Unit (Option (List Nat))
  | none => .ok none
  | some v =>
    match to_str v with
    | some s => .ok (some s)
    | none => .error ()

/-- A possibly-absent origin header whose bytes pass `to_str`. -/
def optHeaderOk : Option (List Nat) → Bool
  | none => true
  | some v => headerToStrOk v

/-- `store_record` (lines 147-294 of `oss.rs`). The declared
`content-length` is validated (too big over `100*1024*1024`, too small at
`0`) before anything else; the buffered body (`body` is the result of
`body::to_bytes`) is never measured. -/
def store_record (f : Faults) (h : StoreHeaders)
    (body : Except String (List Nat)) (db : Db) : StoreStep :=
  match parseContentLength h.contentLength with
  | none => ⟨.errResp "not found valid header [content-length]", db, []⟩
  | some cl =>
    if 104857600 < cl then
      ⟨.errResp "invalid stored record [size is too big]", db, []⟩
    else if cl = 0 then
      ⟨.errResp "invalid stored record [size is too small]", db, []⟩
    else
      match originHeaderValue h.originName with
      | .error _ => ⟨.panicked, db, []⟩
      | .ok nm =>
        match originHeaderValue h.originType with
        | .error _ => ⟨.panicked, db, []⟩
        | .ok ty =>
          match body with
          | .error e => ⟨.errResp ("read body stream error: " ++ e), db, []⟩
          | .ok bytes => dedupPut f db (serialize ⟨nm, ty, some bytes⟩)

/-- The response of `get_record_by_key`: an error body, a success carrying
the two origin headers (absent rendered as empty) and the payload, or a
panic from an unguarded `unwrap`. -/
inductive GetOutcome where
  | errResp (msg : String)
  | okResp (originName originType payload : List Nat)
  | panicked
deriving DecidableEq

/-- Lines 122-143 of `oss.rs`, after a successful point read:
`bincode::deserialize(..).unwrap()` (a decode failure panics),
`HeaderValue::from_str(..).unwrap()` on each origin field rendered with
`unwrap_or` empty (invalid header bytes panic), and
`content_data.unwrap()` for the body (an absent payload panics). -/
def decodeAndRespond (bytes : List Nat) : GetOutcome :=
  match deserialize bytes with
  | none => .panicked
  | some rec =>
    if headerFromStrOk (rec.origin_name.getD []) then
      if headerFromStrOk (rec.origin_type.getD []) then
        match rec.content_data with
        | none => .panicked
        | some payload =>
          .okResp (rec.origin_name.getD []) (rec.origin_type.getD []) payload
      else .panicked
    else .panicked

/-- `get_record_by_key` (lines 69-144 of `oss.rs`): hex-decode the key
(no length check), point read, then decode and respond. -/
def get_record_by_key (f : Faults) (key : List Char) (db : Db) : GetOutcome :=
  match hexDecode key with
  | none => .errResp "invalid hex string [record key]"
  | some kb =>
    if f.getFails then .errResp "get error [record key]"
    else
      match dbLookup db kb with
      | none => .errResp "not found [record key]"
      | some bytes => decodeAndRespond bytes

/-- The sixteen lowercase hexadecimal digits. -/
def lowerHexDigits : List Char := (List.range 16).map hexDigitLower

/-- The canonical encoding `store_record` persists for a request: the
record built from the two origin headers and the buffered body. -/
def storeEnc (h : StoreHeaders) (body : List Nat) : List Nat :=
  serialize ⟨h.originName, h.originType, some body⟩

/-- The fingerprint (store key) of that encoding. -/
def storeFp (h : StoreHeaders) (body : List Nat) : List Nat :=
  md5Compute (storeEnc h body)

/-! ### Codec lemmas -/

theorem readU64_u64le (n : Nat) (h : n < 18446744073709551616) (r : List Nat) :
    readU64 (u64le n ++ r) = some (n, r) := by
  simp only [u64le, List.cons_append, List.nil_append, readU64,
    Option.some.injEq, Prod.mk.injEq]
  refine ⟨by omega, trivial⟩

theorem readBytes_append (b r : List Nat) :
    readBytes b.length (b ++ r) = some (b, r) := by
  simp [readBytes, List.take_left, List.drop_left]

theorem readString_enc (s r : List Nat) (hu : utf8Valid s = true)
    (hl : s.length < 18446744073709551616) :
    readString (encBytes s ++ r) = some (s, r) := by
  simp [readString, encBytes, List.append_assoc, readU64_u64le s.length hl,
    readBytes_append, hu]

theorem readVecU8_enc (b r : List Nat) (hl : b.length < 18446744073709551616) :
    readVecU8 (encBytes b ++ r) = some (b, r) := by
  simp [readVecU8, encBytes, List.append_assoc, readU64_u64le b.length hl,
    readBytes_append]

theorem readOptField_none (re : List Nat → Option (List Nat × List Nat))
    (r : List Nat) : readOptField re (encOptBytes none ++ r) = some (none, r) := by
  simp [encOptBytes, readOptField]

theorem readOptField_some (re : List Nat → Option (List Nat × List Nat))
    (b r : List Nat) (h : re (encBytes b ++ r) = some (b, r)) :
    readOptField re (encOptBytes (some b) ++ r) = some (some b, r) := by
  simp [encOptBytes, readOptField, h]

/-- Round-trip law of the bincode codec on well-formed records. -/
theorem deserialize_serialize (r : OssRecordStore) (h : recWF r = true) :
    deserialize (serialize r) = some r := by
  obtain ⟨nm, ty, cd⟩ := r
  simp only [recWF, Bool.and_eq_true] at h
  obtain ⟨⟨h1, h2⟩, h3⟩ := h
  have estr : ∀ o : Option (List Nat),
      (match o with
       | none => true
       | some s => utf8Valid s && decide (s.length < 18446744073709551616)) = true →
      ∀ t, readOptField readString (encOptBytes o ++ t) = some (o, t) := by
    intro o ho t
    match o, ho with
    | none, _ => exact readOptField_none _ _
    | some s, ho =>
      simp only [Bool.and_eq_true, decide_eq_true_eq] at ho
      exact readOptField_some _ _ _ (readString_enc s t ho.1 ho.2)
  have e1 := estr nm h1
  have e2 := estr ty h2
  have e3 : ∀ t, readOptField readVecU8 (encOptBytes cd ++ t) = some (cd, t) := by
    intro t
    match cd, h3 with
    | none, _ => exact readOptField_none _ _
    | some b, h3 =>
      simp only [decide_eq_true_eq] at h3
      exact readOptField_some _ _ _ (readVecU8_enc b t h3)
  have e3' : readOptField readVecU8 (encOptBytes cd) = some (cd, []) := by
    have := e3 []
    rwa [List.append_nil] at this
  simp only [serialize, deserialize, e1, e2, e3']

/-! ### ASCII, header, digest and hex lemmas -/

theorem utf8ValidFuel_ascii : ∀ (fuel : Nat) (l : List Nat), l.length ≤ fuel →
    (∀ b ∈ l, b ≤ 127) → utf8ValidFuel fuel l = true
  | fuel, [], _, _ => by cases fuel <;> rfl
  | 0, _ :: _, hf, _ => by simp at hf
  | fuel + 1, b :: t, hf, h => by
    have hb : b ≤ 127 := h b (List.mem_cons_self b t)
    have hf' : t.length ≤ fuel := by simp only [List.length_cons] at hf; omega
    have ht := utf8ValidFuel_ascii fuel t hf'
      (fun x hx => h x (List.mem_cons_of_mem b hx))
    simp only [utf8ValidFuel]
    rw [if_pos hb]
    exact ht

theorem utf8Valid_of_ascii (s : List Nat) (h : ∀ b ∈ s, b ≤ 127) :
    utf8Valid s = true :=
  utf8ValidFuel_ascii s.length s le_rfl h

theorem headerToStrOk_ascii (v : List Nat) (h : headerToStrOk v = true) :
    ∀ b ∈ v, b ≤ 127 := by
  intro b hb
  simp only [headerToStrOk, List.all_eq_true] at h
  have := h b hb
  simp only [Bool.or_eq_true, beq_iff_eq, Bool.and_eq_true, decide_eq_true_eq] at this
  omega

theorem headerFromStrOk_of_toStrOk (v : List Nat) (h : headerToStrOk v = true) :
    headerFromStrOk v = true := by
  simp only [headerToStrOk, List.all_eq_true] at h
  simp only [headerFromStrOk, List.all_eq_true]
  intro b hb
  have := h b hb
  simp only [Bool.or_eq_true, beq_iff_eq, Bool.and_eq_true, decide_eq_true_eq,
    bne_iff_ne, ne_eq] at this ⊢
  omega

theorem to_str_of_ok (v : List Nat) (h : headerToStrOk v = true) :
    to_str v = some v := by
  simp [to_str, h]

theorem wordLE_length (w : Nat) : (wordLE w).length = 4 := rfl

theorem wordLE_lt (w : Nat) : ∀ b ∈ wordLE w, b < 256 := by
  intro b hb
  simp only [wordLE, List.mem_cons, List.not_mem_nil, or_false] at hb
  rcases hb with h | h | h | h <;> subst h <;> omega

/-- The MD5 digest is always exactly 16 bytes. -/
theorem md5Compute_length (msg : List Nat) : (md5Compute msg).length = 16 := by
  simp [md5Compute, wordLE]

theorem md5Compute_lt (msg : List Nat) : ∀ b ∈ md5Compute msg, b < 256 := by
  intro b hb
  simp only [md5Compute] at hb
  rcases List.mem_append.mp hb with h | h
  · rcases List.mem_append.mp h with h | h
    · rcases List.mem_append.mp h with h | h
      · exact wordLE_lt _ b h
      · exact wordLE_lt _ b h
    · exact wordLE_lt _ b h
  · exact wordLE_lt _ b h

theorem hexDigit_roundtrip (d : Nat) (h : d < 16) :
    hexDigitToNat (hexDigitLower d) = some d := by
  interval_cases d <;> decide

theorem hexOfBytes_roundtrip :
    ∀ bs : List Nat, (∀ b ∈ bs, b < 256) → hexDecode (hexOfBytes bs) = some bs
  | [], _ => rfl
  | b :: t, h => by
    have hb : b < 256 := h b (List.mem_cons_self b t)
    have ht := hexOfBytes_roundtrip t (fun x hx => h x (List.mem_cons_of_mem b hx))
    have h1 : b / 16 < 16 := by omega
    have h2 : b % 16 < 16 := by omega
    have hcons : ∀ c1 c2 cs, hexDecode (c1 :: c2 :: cs) =
        match hexDigitToNat c1, hexDigitToNat c2, hexDecode cs with
        | some hh, some ll, some r => some ((hh * 16 + ll) :: r)
        | _, _, _ => none := fun _ _ _ => rfl
    simp only [hexOfBytes, hcons, hexDigit_roundtrip _ h1, hexDigit_roundtrip _ h2, ht]
    have : b / 16 * 16 + b % 16 = b := by omega
    rw [this]

theorem hexOfBytes_length : ∀ bs : List Nat, (hexOfBytes bs).length = 2 * bs.length
  | [] => rfl
  | _ :: t => by simp [hexOfBytes, hexOfBytes_length t]; ring

theorem hexDigitLower_mem (d : Nat) (h : d < 16) :
    hexDigitLower d ∈ lowerHexDigits :=
  List.mem_map_of_mem _ (List.mem_range.mpr h)

/-- Every character of a rendered digest is a lowercase hex digit. -/
theorem hexOfBytes_lower (bs : List Nat) (h : ∀ b ∈ bs, b < 256) :
    ∀ c ∈ hexOfBytes bs, c ∈ lowerHexDigits := by
  induction bs with
  | nil => intro c hc; simp [hexOfBytes] at hc
  | cons b t ih =>
    intro c hc
    have hb : b < 256 := h b (List.mem_cons_self b t)
    simp only [hexOfBytes, List.mem_cons] at hc
    rcases hc with h1 | h2 | h3
    · exact h1 ▸ hexDigitLower_mem _ (by omega)
    · exact h2 ▸ hexDigitLower_mem _ (by omega)
    · exact ih (fun x hx => h x (List.mem_cons_of_mem b hx)) c h3

/-! ### Store lemmas -/

theorem dbCount_cons (e : List Nat × List Nat) (rest : Db) (k : List Nat) :
    dbCount (e :: rest) k = (if e.1 = k then 1 else 0) + dbCount rest k := by
  by_cases h : e.1 = k <;> simp [dbCount, List.filter_cons, h]
  omega

theorem dbLookup_dbInsert_self (db : Db) (k v : List Nat) :
    dbLookup (dbInsert db k v) k = some v := by
  induction db with
  | nil => simp [dbInsert, dbLookup]
  | cons e rest ih =>
    obtain ⟨ek, ev⟩ := e
    by_cases h : ek = k
    · simp [dbInsert, h, dbLookup]
    · simp [dbInsert, h, dbLookup, ih]

theorem dbLookup_dbInsert_ne (db : Db) (k v k' : List Nat) (h : k ≠ k') :
    dbLookup (dbInsert db k v) k' = dbLookup db k' := by
  induction db with
  | nil => simp [dbInsert, dbLookup, h]
  | cons e rest ih =>
    obtain ⟨ek, ev⟩ := e
    simp only [dbInsert]
    by_cases he : ek = k
    · subst he
      rw [if_pos rfl]
      simp only [dbLookup]
      rw [if_neg h, if_neg h]
    · rw [if_neg he]
      simp only [dbLookup]
      by_cases he' : ek = k'
      · simp [he']
      · simp [he', ih]

theorem dbCount_dbInsert_self (db : Db) (k v : List Nat)
    (h : dbCount db k ≤ 1) : dbCount (dbInsert db k v) k = 1 := by
  induction db with
  | nil => simp [dbInsert, dbCount, List.filter_cons]
  | cons e rest ih =>
    obtain ⟨ek, ev⟩ := e
    rw [dbCount_cons] at h
    by_cases he : ek = k
    · rw [if_pos he] at h
      have h0 : dbCount rest k = 0 := by omega
      show dbCount (if ek = k then (k, v) :: rest else (ek, ev) :: dbInsert rest k v) k = 1
      rw [if_pos he, dbCount_cons, if_pos rfl, h0]
    · rw [if_neg he] at h
      show dbCount (if ek = k then (k, v) :: rest else (ek, ev) :: dbInsert rest k v) k = 1
      rw [if_neg he, dbCount_cons, if_neg he, ih (by omega)]

theorem dbCount_of_lookup_some (db : Db) (k : List Nat)
    (hn : dbCount db k ≤ 1) (hv : ∃ v, dbLookup db k = some v) :
    dbCount db k = 1 := by
  induction db with
  | nil => simp [dbLookup] at hv
  | cons e rest ih =>
    obtain ⟨ek, ev⟩ := e
    rw [dbCount_cons] at hn ⊢
    by_cases he : ek = k
    · rw [if_pos he] at hn ⊢
      omega
    · rw [if_neg he] at hn ⊢
      simp only [dbLookup, if_neg he] at hv
      simp only [Nat.zero_add]
      exact ih (by omega) hv

/-! ### Handler lemmas -/

theorem originHeaderValue_ok (o : Option (List Nat)) (h : optHeaderOk o = true) :
    originHeaderValue o = .ok o := by
  match o, h with
  | none, _ => rfl
  | some v, h =>
    simp only [optHeaderOk] at h
    simp [originHeaderValue, to_str_of_ok v h]

theorem optHeaderOk_fromStr (o : Option (List Nat)) (h : optHeaderOk o = true) :
    headerFromStrOk (o.getD []) = true := by
  match o, h with
  | none, _ => rfl
  | some v, h =>
    simp only [optHeaderOk] at h
    exact headerFromStrOk_of_toStrOk v h

theorem recWF_of_headers (nm ty : Option (List Nat)) (body : List Nat)
    (hn : optHeaderOk nm = true) (ht : optHeaderOk ty = true)
    (hnl : ∀ v, nm = some v → v.length < 18446744073709551616)
    (htl : ∀ v, ty = some v → v.length < 18446744073709551616)
    (hbl : body.length < 18446744073709551616) :
    recWF ⟨nm, ty, some body⟩ = true := by
  have hfield : ∀ o : Option (List Nat), optHeaderOk o = true →
      (∀ v, o = some v → v.length < 18446744073709551616) →
      (match o with
       | none => true
       | some s => utf8Valid s && decide (s.length < 18446744073709551616)) = true := by
    intro o ho hol
    match o with
    | none => rfl
    | some v =>
      simp only [optHeaderOk] at ho
      have h1 := utf8Valid_of_ascii v (fun b hb => headerToStrOk_ascii v ho b hb)
      have h2 := hol v rfl
      simp [h1, h2]
  simp only [recWF, hfield nm hn hnl, hfield ty ht htl, Bool.true_and]
  simp [hbl]

/-- With a parsed in-range `content-length` and valid origin headers, the
handler reaches the dedup phase with the record built from the headers
and the buffered body. -/
theorem store_record_to_dedupPut (f : Faults) (h : StoreHeaders)
    (body : List Nat) (db : Db) (cl : Nat)
    (hcl : parseContentLength h.contentLength = some cl)
    (h1 : 0 < cl) (h2 : cl ≤ 104857600)
    (hn : optHeaderOk h.originName = true) (ht : optHeaderOk h.originType = true) :
    store_record f h (.ok body) db =
      dedupPut f db (serialize ⟨h.originName, h.originType, some body⟩) := by
  simp only [store_record, hcl]
  rw [if_neg (by omega : ¬ 104857600 < cl), if_neg (by omega : ¬ cl = 0),
    originHeaderValue_ok _ hn, originHeaderValue_ok _ ht]

theorem dedupPut_getFail (f : Faults) (db : Db) (enc : List Nat)
    (hg : f.getFails = true) :
    dedupPut f db enc =
      ⟨.errResp "get error", db, [.readOp (md5Compute enc)]⟩ := by
  simp [dedupPut, hg]

theorem dedupPut_hit (f : Faults) (db : Db) (enc v : List Nat)
    (hg : f.getFails = false)
    (hv : dbLookup db (md5Compute enc) = some v) :
    dedupPut f db enc =
      ⟨.okResp (hexOfBytes (md5Compute enc)), db, [.readOp (md5Compute enc)]⟩ := by
  simp [dedupPut, hg, hv]

theorem dedupPut_miss_putFail (f : Faults) (db : Db) (enc : List Nat)
    (hg : f.getFails = false) (hp : f.putFails = true)
    (hv : dbLookup db (md5Compute enc) = none) :
    dedupPut f db enc =
      ⟨.errResp "put error", db,
       [.readOp (md5Compute enc), .writeOp (md5Compute enc) enc]⟩ := by
  simp [dedupPut, hg, hp, hv]

theorem dedupPut_miss_ok (f : Faults) (db : Db) (enc : List Nat)
    (hg : f.getFails = false) (hp : f.putFails = false)
    (hv : dbLookup db (md5Compute enc) = none) :
    dedupPut f db enc =
      ⟨.okResp (hexOfBytes (md5Compute enc)), dbInsert db (md5Compute enc) enc,
       [.readOp (md5Compute enc), .writeOp (md5Compute enc) enc]⟩ := by
  simp [dedupPut, hg, hp, hv]

/-- Retrieval of a stored canonical encoding through its hex fingerprint. -/
theorem get_after_clean (db : Db) (r : OssRecordStore) (body : List Nat)
    (hwf : recWF r = true)
    (hcd : r.content_data = some body)
    (hn : headerFromStrOk (r.origin_name.getD []) = true)
    (ht : headerFromStrOk (r.origin_type.getD []) = true)
    (hv : dbLookup db (md5Compute (serialize r)) = some (serialize r)) :
    get_record_by_key noFaults (hexOfBytes (md5Compute (serialize r))) db =
      .okResp (r.origin_name.getD []) (r.origin_type.getD []) body := by
  have hhex : hexDecode (hexOfBytes (md5Compute (serialize r))) =
      some (md5Compute (serialize r)) :=
    hexOfBytes_roundtrip _ (md5Compute_lt _)
  simp [get_record_by_key, hhex, noFaults, hv, decodeAndRespond,
    deserialize_serialize r hwf, hn, ht, hcd]

theorem decodeAndRespond_ne_errResp (bytes : List Nat) (msg : String) :
    decodeAndRespond bytes ≠ .errResp msg := by
  unfold decodeAndRespond
  cases deserialize bytes with
  | none => simp
  | some rec =>
    by_cases h1 : headerFromStrOk (rec.origin_name.getD []) <;>
      by_cases h2 : headerFromStrOk (rec.origin_type.getD []) <;>
      simp [h1, h2]
    cases rec.content_data <;> simp

theorem hexOfBytes_inj (a b : List Nat) (ha : ∀ x ∈ a, x < 256)
    (hb : ∀ x ∈ b, x < 256) (h : hexOfBytes a = hexOfBytes b) : a = b := by
  have h1 := hexOfBytes_roundtrip a ha
  rw [h, hexOfBytes_roundtrip b hb] at h1
  exact (Option.some_inj.mp h1).symm

/-! ## The claims -/

/-- C2: for every valid Record (optional origin name, optional origin
type, any payload), decoding the canonical bincode encoding yields the
original record: `decode(encode(r)) = r`. -/
theorem C2_codec_roundtrip (r : OssRecordStore) (h : recWF r = true) :
    deserialize (serialize r) = some r :=
  deserialize_serialize r h

/-- Witness for C2 at a concrete record. -/
theorem C2_codec_roundtrip_witness :
    recWF ⟨some [97, 46, 116, 120, 116], none, some [1, 2, 3]⟩ = true ∧
    deserialize (serialize ⟨some [97, 46, 116, 120, 116], none, some [1, 2, 3]⟩) =
      some ⟨some [97, 46, 116, 120, 116], none, some [1, 2, 3]⟩ :=
  ⟨by decide, C2_codec_roundtrip ⟨some [97, 46, 116, 120, 116], none, some [1, 2, 3]⟩ (by decide)⟩

/-- C5: a request whose declared `content-length` is 0 (an empty payload)
fails with the too-small error, and one whose declared length exceeds
`100*1024*1024` fails with the too-big error; in both cases the store
sees no read and no write (empty trace) and is unchanged. -/
theorem C5_boundary_rejection (f : Faults) (h : StoreHeaders)
    (body : Except String (List Nat)) (db : Db) (cl : Nat)
    (hcl : parseContentLength h.contentLength = some cl) :
    (cl = 0 → store_record f h body db =
      ⟨.errResp "invalid stored record [size is too small]", db, []⟩) ∧
    (104857600 < cl → store_record f h body db =
      ⟨.errResp "invalid stored record [size is too big]", db, []⟩) := by
  constructor
  · intro h0
    simp only [store_record, hcl]
    rw [if_neg (by omega : ¬ 104857600 < cl), if_pos h0]
  · intro hbig
    simp only [store_record, hcl]
    rw [if_pos hbig]

/-- Witness for C5: `content-length: 0` (empty payload) and
`content-length: 104857601` (oversized payload) at concrete requests. -/
theorem C5_boundary_rejection_witness :
    (parseContentLength (some [48]) = some 0 ∧
     store_record noFaults ⟨some [48], none, none⟩ (.ok [1]) [] =
       ⟨.errResp "invalid stored record [size is too small]", [], []⟩) ∧
    (parseContentLength (some [49, 48, 52, 56, 53, 55, 54, 48, 49]) = some 104857601 ∧
     store_record noFaults ⟨some [49, 48, 52, 56, 53, 55, 54, 48, 49], none, none⟩
       (.ok [1]) [] =
       ⟨.errResp "invalid stored record [size is too big]", [], []⟩) :=
  ⟨⟨by decide,
    (C5_boundary_rejection noFaults ⟨some [48], none, none⟩ (.ok [1]) [] 0
      (by decide)).1 rfl⟩,
   ⟨by decide,
    (C5_boundary_rejection noFaults ⟨some [49, 48, 52, 56, 53, 55, 54, 48, 49], none, none⟩
      (.ok [1]) [] 104857601 (by decide)).2 (by omega)⟩⟩

/-- C6 counterexample: the key `"ab"` is valid hexadecimal but decodes to
1 byte, not the expected 16-byte digest length, so the claim requires the
invalid-key error; the code instead hex-decodes it successfully, looks it
up, and reports not-found. -/
theorem C6_counterexample :
    hexDecode ['a', 'b'] = some [171] ∧
    [171].length ≠ 16 ∧
    get_record_by_key noFaults ['a', 'b'] [] = .errResp "not found [record key]" ∧
    GetOutcome.errResp "not found [record key]" ≠
      GetOutcome.errResp "invalid hex string [record key]" := by
  refine ⟨by decide, by decide, by decide, by decide⟩

/-- C6 amended: `retrieve` fails with the invalid-key error iff the key
is not valid hexadecimal at all (odd length or a non-hex character); a
key that is valid hexadecimal of any length but decodes to an unstored
key fails with the not-found error instead. -/
theorem C6_amended_invalid_key (key : List Char) (db : Db) :
    (get_record_by_key noFaults key db = .errResp "invalid hex string [record key]" ↔
      hexDecode key = none) ∧
    (∀ kb, hexDecode key = some kb → dbLookup db kb = none →
      get_record_by_key noFaults key db = .errResp "not found [record key]") := by
  cases hh : hexDecode key with
  | none =>
    constructor
    · simp [get_record_by_key, hh]
    · intro kb hkb
      simp at hkb
  | some kb =>
    have hform : get_record_by_key noFaults key db =
        match dbLookup db kb with
        | none => .errResp "not found [record key]"
        | some bytes => decodeAndRespond bytes := by
      simp [get_record_by_key, hh, noFaults]
    constructor
    · rw [hform]
      cases hl : dbLookup db kb with
      | none => simp
      | some bytes =>
        simp only [hh, reduceCtorEq, iff_false]
        exact decodeAndRespond_ne_errResp bytes _
    · intro kb' hkb' hl
      obtain rfl : kb = kb' := Option.some_inj.mp hkb'
      rw [hform, hl]

/-- Witness for C6's amended theorem: an unstored valid-hex key of digest
length yields not-found, and `"zz"` (not hexadecimal) yields invalid-key. -/
theorem C6_amended_invalid_key_witness :
    hexDecode (List.replicate 32 '0') = some (List.replicate 16 0) ∧
    get_record_by_key noFaults (List.replicate 32 '0') [] =
      .errResp "not found [record key]" ∧
    (get_record_by_key noFaults ['z', 'z'] [] =
      .errResp "invalid hex string [record key]" ↔ hexDecode ['z', 'z'] = none) :=
  ⟨by decide,
   (C6_amended_invalid_key (List.replicate 32 '0') []).2 (List.replicate 16 0)
     (by decide) rfl,
   (C6_amended_invalid_key ['z', 'z'] []).1⟩

/-- C7 counterexample: stored bytes `[2]` do not decode as a Record
(invalid option tag), and `get_record_by_key` on them panics
(`bincode::deserialize(..).unwrap()`, line 122-127) instead of returning
a structured corrupt-record error. -/
theorem C7_counterexample :
    deserialize [2] = none ∧
    get_record_by_key noFaults (List.replicate 32 '0')
      [(List.replicate 16 0, [2])] = .panicked := by
  refine ⟨by decide, by decide⟩

/-- C7 amended: when `retrieve` finds stored bytes that do not decode as
a valid Record, the handler panics (unwrap on the decode result); no
corrupt-record error value is produced. -/
theorem C7_amended_decode_failure_panics (key : List Char) (db : Db)
    (kb bytes : List Nat) (hk : hexDecode key = some kb)
    (hv : dbLookup db kb = some bytes) (hd : deserialize bytes = none) :
    get_record_by_key noFaults key db = .panicked := by
  simp [get_record_by_key, hk, noFaults, hv, decodeAndRespond, hd]

/-- Witness for C7's amended theorem at the concrete corrupt store. -/
theorem C7_amended_decode_failure_panics_witness :
    get_record_by_key noFaults (List.replicate 32 '0')
      [(List.replicate 16 0, [2])] = .panicked :=
  C7_amended_decode_failure_panics (List.replicate 32 '0')
    [(List.replicate 16 0, [2])] (List.replicate 16 0) [2]
    (by decide) (by decide) (by decide)

/-- Once the store phase is reached, the first store operation is always
the point read of the fingerprint. -/
theorem store_trace_head (f : Faults) (h : StoreHeaders) (body : List Nat)
    (db : Db) (cl : Nat)
    (hcl : parseContentLength h.contentLength = some cl)
    (h1 : 0 < cl) (h2 : cl ≤ 104857600)
    (hn : optHeaderOk h.originName = true) (ht : optHeaderOk h.originType = true) :
    (store_record f h (.ok body) db).trace.head? =
      some (.readOp (storeFp h body)) := by
  rw [store_record_to_dedupPut f h body db cl hcl h1 h2 hn ht]
  simp only [storeFp, storeEnc]
  cases hg : f.getFails with
  | true => rw [dedupPut_getFail f db _ hg]; rfl
  | false =>
    cases hl : dbLookup db (md5Compute (serialize ⟨h.originName, h.originType, some body⟩)) with
    | some v => rw [dedupPut_hit f db _ v hg hl]; rfl
    | none =>
      cases hp : f.putFails with
      | true => rw [dedupPut_miss_putFail f db _ hg hp hl]; rfl
      | false => rw [dedupPut_miss_ok f db _ hg hp hl]; rfl

/-- C4: the dedup write path is read-then-write.  The first store
operation is always the point read of the fingerprint; a failed read
yields the store-unavailable error `"get error"` with no write attempted
and the store unchanged; a read that returns a value performs no write
and succeeds; a read that returns no value issues the write, and a failed
write yields the store-unavailable error `"put error"` with the store
unchanged. -/
theorem C4_read_then_write (f : Faults) (h : StoreHeaders) (body : List Nat)
    (db : Db) (cl : Nat)
    (hcl : parseContentLength h.contentLength = some cl)
    (h1 : 0 < cl) (h2 : cl ≤ 104857600)
    (hn : optHeaderOk h.originName = true) (ht : optHeaderOk h.originType = true) :
    (store_record f h (.ok body) db).trace.head? =
      some (.readOp (storeFp h body)) ∧
    (f.getFails = true →
      store_record f h (.ok body) db =
        ⟨.errResp "get error", db, [.readOp (storeFp h body)]⟩) ∧
    (f.getFails = false → ∀ v, dbLookup db (storeFp h body) = some v →
      store_record f h (.ok body) db =
        ⟨.okResp (hexOfBytes (storeFp h body)), db, [.readOp (storeFp h body)]⟩) ∧
    (f.getFails = false → dbLookup db (storeFp h body) = none →
      f.putFails = true →
      store_record f h (.ok body) db =
        ⟨.errResp "put error", db,
         [.readOp (storeFp h body), .writeOp (storeFp h body) (storeEnc h body)]⟩) ∧
    (f.getFails = false → dbLookup db (storeFp h body) = none →
      f.putFails = false →
      store_record f h (.ok body) db =
        ⟨.okResp (hexOfBytes (storeFp h body)),
         dbInsert db (storeFp h body) (storeEnc h body),
         [.readOp (storeFp h body), .writeOp (storeFp h body) (storeEnc h body)]⟩) := by
  have hred := store_record_to_dedupPut f h body db cl hcl h1 h2 hn ht
  simp only [storeFp, storeEnc]
  refine ⟨store_trace_head f h body db cl hcl h1 h2 hn ht, ?_, ?_, ?_, ?_⟩
  · intro hg
    rw [hred, dedupPut_getFail f db _ hg]
  · intro hg v hv
    rw [hred, dedupPut_hit f db _ v hg hv]
  · intro hg hv hp
    rw [hred, dedupPut_miss_putFail f db _ hg hp hv]
  · intro hg hv hp
    rw [hred, dedupPut_miss_ok f db _ hg hp hv]

/-- Witness for C4: a failing read at a concrete request yields the get
error with only the point read issued and the store unchanged. -/
theorem C4_read_then_write_witness :
    store_record ⟨true, false⟩ ⟨some [49], none, none⟩ (.ok [5]) [] =
      ⟨.errResp "get error", [],
       [.readOp (storeFp ⟨some [49], none, none⟩ [5])]⟩ :=
  (C4_read_then_write ⟨true, false⟩ ⟨some [49], none, none⟩ [5] [] 1
    (by decide) (by decide) (by decide) rfl rfl).2.1 rfl

/-- C1: after a successful `store(m, p) -> k`, `retrieve(k)` succeeds and
returns the stored origin name and type (an absent field rendered as the
empty string, as the response headers do) and the exact payload bytes.
The store is assumed collision-clean at this fingerprint: any existing
entry there holds the canonical encoding (spec §4.3 assumes existing
bytes are canonical for the fingerprint). -/
theorem C1_retrieval_consistency (h : StoreHeaders) (body : List Nat)
    (db : Db) (cl : Nat)
    (hcl : parseContentLength h.contentLength = some cl)
    (h1 : 0 < cl) (h2 : cl ≤ 104857600)
    (hn : optHeaderOk h.originName = true) (ht : optHeaderOk h.originType = true)
    (hnl : ∀ v, h.originName = some v → v.length < 18446744073709551616)
    (htl : ∀ v, h.originType = some v → v.length < 18446744073709551616)
    (hbl : body.length < 18446744073709551616)
    (hclean : dbLookup db (storeFp h body) = none ∨
      dbLookup db (storeFp h body) = some (storeEnc h body)) :
    (store_record noFaults h (.ok body) db).outcome =
      .okResp (hexOfBytes (storeFp h body)) ∧
    get_record_by_key noFaults (hexOfBytes (storeFp h body))
        (store_record noFaults h (.ok body) db).db =
      .okResp (h.originName.getD []) (h.originType.getD []) body := by
  have hred := store_record_to_dedupPut noFaults h body db cl hcl h1 h2 hn ht
  have hwf := recWF_of_headers h.originName h.originType body hn ht hnl htl hbl
  have hfn := optHeaderOk_fromStr _ hn
  have hft := optHeaderOk_fromStr _ ht
  simp only [storeFp, storeEnc] at hclean ⊢
  rw [hred]
  rcases hclean with hv | hv
  · rw [dedupPut_miss_ok noFaults db _ rfl rfl hv]
    exact ⟨rfl, get_after_clean _ ⟨h.originName, h.originType, some body⟩ body
      hwf rfl hfn hft (dbLookup_dbInsert_self db _ _)⟩
  · rw [dedupPut_hit noFaults db _ _ rfl hv]
    exact ⟨rfl, get_after_clean db ⟨h.originName, h.originType, some body⟩ body
      hwf rfl hfn hft hv⟩

set_option maxRecDepth 10000 in
/-- Witness for C1 at the spec's example scenario: name `"a.txt"`, type
`"text"`, payload `"hello"`, declared length 5, into the empty store. -/
theorem C1_retrieval_consistency_witness :
    (store_record noFaults ⟨some [53], some [97, 46, 116, 120, 116],
        some [116, 101, 120, 116]⟩ (.ok [104, 101, 108, 108, 111]) []).outcome =
      .okResp (hexOfBytes (storeFp ⟨some [53], some [97, 46, 116, 120, 116],
        some [116, 101, 120, 116]⟩ [104, 101, 108, 108, 111])) ∧
    get_record_by_key noFaults
        (hexOfBytes (storeFp ⟨some [53], some [97, 46, 116, 120, 116],
          some [116, 101, 120, 116]⟩ [104, 101, 108, 108, 111]))
        (store_record noFaults ⟨some [53], some [97, 46, 116, 120, 116],
          some [116, 101, 120, 116]⟩ (.ok [104, 101, 108, 108, 111]) []).db =
      .okResp [97, 46, 116, 120, 116] [116, 101, 120, 116] [104, 101, 108, 108, 111] :=
  C1_retrieval_consistency
    ⟨some [53], some [97, 46, 116, 120, 116], some [116, 101, 120, 116]⟩
    [104, 101, 108, 108, 111] [] 5 (by decide) (by decide) (by decide)
    (by decide) (by decide)
    (by intro v hv; cases hv; decide) (by intro v hv; cases hv; decide)
    (by decide) (Or.inl rfl)

/-- C3: storing byte-identical metadata and payload twice returns the
same fingerprint both times; the second call issues no write and leaves
the store exactly as the first call left it, which holds exactly one
entry for that fingerprint (given the store holds at most one entry per
key, as a key-value store does). -/
theorem C3_idempotent_store (h : StoreHeaders) (body : List Nat) (db : Db)
    (cl : Nat)
    (hcl : parseContentLength h.contentLength = some cl)
    (h1 : 0 < cl) (h2 : cl ≤ 104857600)
    (hn : optHeaderOk h.originName = true) (ht : optHeaderOk h.originType = true)
    (hcount : ∀ k, dbCount db k ≤ 1) :
    (store_record noFaults h (.ok body) db).outcome =
      .okResp (hexOfBytes (storeFp h body)) ∧
    (store_record noFaults h (.ok body)
        (store_record noFaults h (.ok body) db).db).outcome =
      .okResp (hexOfBytes (storeFp h body)) ∧
    (store_record noFaults h (.ok body)
        (store_record noFaults h (.ok body) db).db).db =
      (store_record noFaults h (.ok body) db).db ∧
    (∀ op ∈ (store_record noFaults h (.ok body)
        (store_record noFaults h (.ok body) db).db).trace, op.isWrite = false) ∧
    dbCount (store_record noFaults h (.ok body) db).db (storeFp h body) = 1 := by
  have hred := fun db' => store_record_to_dedupPut noFaults h body db' cl hcl h1 h2 hn ht
  simp only [storeFp, storeEnc]
  rw [hred db]
  cases hv : dbLookup db (md5Compute (serialize ⟨h.originName, h.originType, some body⟩)) with
  | some v =>
    rw [dedupPut_hit noFaults db _ v rfl hv]
    dsimp only
    rw [hred db, dedupPut_hit noFaults db _ v rfl hv]
    refine ⟨rfl, rfl, rfl, ?_, ?_⟩
    · intro op hop
      simp only [List.mem_singleton] at hop
      subst hop
      rfl
    · exact dbCount_of_lookup_some db _ (hcount _) ⟨v, hv⟩
  | none =>
    rw [dedupPut_miss_ok noFaults db _ rfl rfl hv]
    dsimp only
    have hv2 := dbLookup_dbInsert_self db
      (md5Compute (serialize ⟨h.originName, h.originType, some body⟩))
      (serialize ⟨h.originName, h.originType, some body⟩)
    rw [hred _, dedupPut_hit noFaults _ _ _ rfl hv2]
    refine ⟨rfl, rfl, rfl, ?_, ?_⟩
    · intro op hop
      simp only [List.mem_singleton] at hop
      subst hop
      rfl
    · exact dbCount_dbInsert_self db _ _ (hcount _)

set_option maxRecDepth 10000 in
/-- Witness for C3: the same concrete request stored twice into the
empty store. -/
theorem C3_idempotent_store_witness :
    (store_record noFaults ⟨some [49], some [97], none⟩ (.ok [7]) []).outcome =
      .okResp (hexOfBytes (storeFp ⟨some [49], some [97], none⟩ [7])) ∧
    (store_record noFaults ⟨some [49], some [97], none⟩ (.ok [7])
        (store_record noFaults ⟨some [49], some [97], none⟩ (.ok [7]) []).db).outcome =
      .okResp (hexOfBytes (storeFp ⟨some [49], some [97], none⟩ [7])) ∧
    (store_record noFaults ⟨some [49], some [97], none⟩ (.ok [7])
        (store_record noFaults ⟨some [49], some [97], none⟩ (.ok [7]) []).db).db =
      (store_record noFaults ⟨some [49], some [97], none⟩ (.ok [7]) []).db ∧
    (∀ op ∈ (store_record noFaults ⟨some [49], some [97], none⟩ (.ok [7])
        (store_record noFaults ⟨some [49], some [97], none⟩ (.ok [7]) []).db).trace,
      op.isWrite = false) ∧
    dbCount (store_record noFaults ⟨some [49], some [97], none⟩ (.ok [7]) []).db
      (storeFp ⟨some [49], some [97], none⟩ [7]) = 1 :=
  C3_idempotent_store ⟨some [49], some [97], none⟩ [7] [] 1
    (by decide) (by decide) (by decide) (by decide) rfl
    (by intro k; simp [dbCount])

/-- Inversion: a successful `store_record` key is always the hex of the
MD5 digest of some record's canonical encoding. -/
theorem store_okResp_inv (f : Faults) (h : StoreHeaders)
    (body : Except String (List Nat)) (db : Db) (k : List Char)
    (hk : (store_record f h body db).outcome = .okResp k) :
    ∃ r : OssRecordStore, k = hexOfBytes (md5Compute (serialize r)) := by
  unfold store_record dedupPut at hk
  repeat' split at hk
  all_goals dsimp only at hk
  all_goals repeat' split at hk
  all_goals try dsimp only at hk
  all_goals first
    | exact StoreOutcome.noConfusion hk
    | (injection hk with hk; exact ⟨_, hk.symm⟩)

/-- C8: the fingerprint is a deterministic function of the input bytes,
its output is always a fixed-length 16-byte digest, and every successful
store key is a digest of a canonical encoding rendered as 32 lowercase
hexadecimal characters. -/
theorem C8_fingerprint_properties :
    (∀ m1 m2 : List Nat, m1 = m2 → md5Compute m1 = md5Compute m2) ∧
    (∀ m : List Nat, (md5Compute m).length = 16) ∧
    (∀ (f : Faults) (h : StoreHeaders) (body : Except String (List Nat))
       (db : Db) (k : List Char),
      (store_record f h body db).outcome = .okResp k →
      ∃ r : OssRecordStore, k = hexOfBytes (md5Compute (serialize r)) ∧
        k.length = 32 ∧ ∀ c ∈ k, c ∈ lowerHexDigits) := by
  refine ⟨fun m1 m2 hm => hm ▸ rfl, md5Compute_length, ?_⟩
  intro f h body db k hk
  obtain ⟨r, hr⟩ := store_okResp_inv f h body db k hk
  refine ⟨r, hr, ?_, ?_⟩
  · rw [hr, hexOfBytes_length, md5Compute_length]
  · rw [hr]
    exact hexOfBytes_lower _ (md5Compute_lt _)

set_option maxRecDepth 10000 in
/-- Witness for C8 at a concrete store of the single byte `0`. -/
theorem C8_fingerprint_properties_witness :
    md5Compute [1, 2] = md5Compute [1, 2] ∧
    (md5Compute [97]).length = 16 ∧
    ∃ r : OssRecordStore,
      hexOfBytes (md5Compute (serialize ⟨none, none, some [0]⟩)) =
        hexOfBytes (md5Compute (serialize r)) ∧
      (hexOfBytes (md5Compute (serialize ⟨none, none, some [0]⟩))).length = 32 ∧
      ∀ c ∈ hexOfBytes (md5Compute (serialize ⟨none, none, some [0]⟩)),
        c ∈ lowerHexDigits :=
  ⟨C8_fingerprint_properties.1 [1, 2] [1, 2] rfl,
   C8_fingerprint_properties.2.1 [97],
   C8_fingerprint_properties.2.2 noFaults ⟨some [49], none, none⟩ (.ok [0]) []
     (hexOfBytes (md5Compute (serialize ⟨none, none, some [0]⟩))) (by decide)⟩

/-- C9: the store key is derived from the canonical encoding of the whole
(origin name, origin type, payload) triple, not the payload alone: two
requests with identical payload whose metadata encodings differ have
different digest inputs, and whenever the digests differ too, storing
both (into a store holding neither fingerprint) returns distinct keys
and leaves two separate entries. -/
theorem C9_metadata_addressed (h1s h2s : StoreHeaders) (body : List Nat)
    (db : Db) (cl1 cl2 : Nat)
    (hcl1 : parseContentLength h1s.contentLength = some cl1)
    (hp1 : 0 < cl1) (hm1 : cl1 ≤ 104857600)
    (hcl2 : parseContentLength h2s.contentLength = some cl2)
    (hp2 : 0 < cl2) (hm2 : cl2 ≤ 104857600)
    (hn1 : optHeaderOk h1s.originName = true) (ht1 : optHeaderOk h1s.originType = true)
    (hn2 : optHeaderOk h2s.originName = true) (ht2 : optHeaderOk h2s.originType = true)
    (hmeta : encOptBytes h1s.originName ++ encOptBytes h1s.originType ≠
      encOptBytes h2s.originName ++ encOptBytes h2s.originType) :
    storeEnc h1s body ≠ storeEnc h2s body ∧
    (storeFp h1s body ≠ storeFp h2s body →
      dbLookup db (storeFp h1s body) = none →
      dbLookup db (storeFp h2s body) = none →
      (store_record noFaults h1s (.ok body) db).outcome =
        .okResp (hexOfBytes (storeFp h1s body)) ∧
      (store_record noFaults h2s (.ok body)
          (store_record noFaults h1s (.ok body) db).db).outcome =
        .okResp (hexOfBytes (storeFp h2s body)) ∧
      hexOfBytes (storeFp h1s body) ≠ hexOfBytes (storeFp h2s body) ∧
      dbLookup (store_record noFaults h2s (.ok body)
          (store_record noFaults h1s (.ok body) db).db).db (storeFp h1s body) =
        some (storeEnc h1s body) ∧
      dbLookup (store_record noFaults h2s (.ok body)
          (store_record noFaults h1s (.ok body) db).db).db (storeFp h2s body) =
        some (storeEnc h2s body)) := by
  constructor
  · intro heq
    apply hmeta
    simp only [storeEnc, serialize] at heq
    rw [← List.append_assoc, ← List.append_assoc] at heq
    exact List.append_cancel_right heq
  · intro hfp hl1 hl2
    have hred1 := store_record_to_dedupPut noFaults h1s body db cl1 hcl1 hp1 hm1 hn1 ht1
    simp only [storeFp, storeEnc] at hfp hl1 hl2 ⊢
    rw [hred1, dedupPut_miss_ok noFaults db _ rfl rfl hl1]
    dsimp only
    rw [store_record_to_dedupPut noFaults h2s body _ cl2 hcl2 hp2 hm2 hn2 ht2]
    have hl2' : dbLookup
        (dbInsert db (md5Compute (serialize ⟨h1s.originName, h1s.originType, some body⟩))
          (serialize ⟨h1s.originName, h1s.originType, some body⟩))
        (md5Compute (serialize ⟨h2s.originName, h2s.originType, some body⟩)) = none := by
      rw [dbLookup_dbInsert_ne db _ _ _ hfp]
      exact hl2
    rw [dedupPut_miss_ok noFaults _ _ rfl rfl hl2']
    dsimp only
    refine ⟨rfl, rfl, ?_, ?_, ?_⟩
    · intro hhex
      exact hfp (hexOfBytes_inj _ _ (md5Compute_lt _) (md5Compute_lt _) hhex)
    · rw [dbLookup_dbInsert_ne _ _ _ _ (Ne.symm hfp)]
      exact dbLookup_dbInsert_self db _ _
    · exact dbLookup_dbInsert_self _ _ _

set_option maxRecDepth 10000 in
/-- Witness for C9: identical single-byte payload under origin names
`"a"` and `"b"`, stored successively into the empty store. -/
theorem C9_metadata_addressed_witness :
    storeEnc ⟨some [49], some [97], none⟩ [7] ≠ storeEnc ⟨some [49], some [98], none⟩ [7] ∧
    (store_record noFaults ⟨some [49], some [97], none⟩ (.ok [7]) []).outcome =
      .okResp (hexOfBytes (storeFp ⟨some [49], some [97], none⟩ [7])) ∧
    (store_record noFaults ⟨some [49], some [98], none⟩ (.ok [7])
        (store_record noFaults ⟨some [49], some [97], none⟩ (.ok [7]) []).db).outcome =
      .okResp (hexOfBytes (storeFp ⟨some [49], some [98], none⟩ [7])) ∧
    hexOfBytes (storeFp ⟨some [49], some [97], none⟩ [7]) ≠
      hexOfBytes (storeFp ⟨some [49], some [98], none⟩ [7]) ∧
    dbLookup (store_record noFaults ⟨some [49], some [98], none⟩ (.ok [7])
        (store_record noFaults ⟨some [49], some [97], none⟩ (.ok [7]) []).db).db
      (storeFp ⟨some [49], some [97], none⟩ [7]) =
      some (storeEnc ⟨some [49], some [97], none⟩ [7]) ∧
    dbLookup (store_record noFaults ⟨some [49], some [98], none⟩ (.ok [7])
        (store_record noFaults ⟨some [49], some [97], none⟩ (.ok [7]) []).db).db
      (storeFp ⟨some [49], some [98], none⟩ [7]) =
      some (storeEnc ⟨some [49], some [98], none⟩ [7]) :=
  ⟨(C9_metadata_addressed ⟨some [49], some [97], none⟩ ⟨some [49], some [98], none⟩
      [7] [] 1 1 (by decide) (by decide) (by decide) (by decide) (by decide)
      (by decide) (by decide) (by decide) (by decide) (by decide) (by decide)).1,
   (C9_metadata_addressed ⟨some [49], some [97], none⟩ ⟨some [49], some [98], none⟩
      [7] [] 1 1 (by decide) (by decide) (by decide) (by decide) (by decide)
      (by decide) (by decide) (by decide) (by decide) (by decide) (by decide)).2
     (by decide) rfl rfl⟩

/-- C10: the size policy consults only the declared `content-length`,
never the buffered body.  For any declared length in `(0, 100*1024*1024]`
the handler proceeds with the actual body whatever its length: no faults
can make it return a size error, the first store operation reads the
fingerprint of the actual body's encoding, and (fault-free, fingerprint
absent) exactly that encoding is persisted. -/
theorem C10_size_policy_declared_only (h : StoreHeaders) (body : List Nat)
    (db : Db) (cl : Nat)
    (hcl : parseContentLength h.contentLength = some cl)
    (h1 : 0 < cl) (h2 : cl ≤ 104857600)
    (hn : optHeaderOk h.originName = true) (ht : optHeaderOk h.originType = true) :
    (∀ f : Faults,
      (store_record f h (.ok body) db).outcome ≠
        .errResp "invalid stored record [size is too small]" ∧
      (store_record f h (.ok body) db).outcome ≠
        .errResp "invalid stored record [size is too big]") ∧
    (store_record noFaults h (.ok body) db).trace.head? =
      some (.readOp (storeFp h body)) ∧
    (dbLookup db (storeFp h body) = none →
      (store_record noFaults h (.ok body) db).outcome =
        .okResp (hexOfBytes (storeFp h body)) ∧
      dbLookup (store_record noFaults h (.ok body) db).db (storeFp h body) =
        some (storeEnc h body)) := by
  refine ⟨?_, ?_, ?_⟩
  · intro f
    rw [store_record_to_dedupPut f h body db cl hcl h1 h2 hn ht]
    cases hg : f.getFails with
    | true =>
      rw [dedupPut_getFail f db _ hg]
      exact ⟨by simp, by simp⟩
    | false =>
      cases hl : dbLookup db (md5Compute (serialize ⟨h.originName, h.originType, some body⟩)) with
      | some v =>
        rw [dedupPut_hit f db _ v hg hl]
        exact ⟨by simp, by simp⟩
      | none =>
        cases hp : f.putFails with
        | true =>
          rw [dedupPut_miss_putFail f db _ hg hp hl]
          exact ⟨by simp, by simp⟩
        | false =>
          rw [dedupPut_miss_ok f db _ hg hp hl]
          exact ⟨by simp, by simp⟩
  · exact store_trace_head noFaults h body db cl hcl h1 h2 hn ht
  · intro hl
    simp only [storeFp, storeEnc] at hl ⊢
    rw [store_record_to_dedupPut noFaults h body db cl hcl h1 h2 hn ht,
      dedupPut_miss_ok noFaults db _ rfl rfl hl]
    exact ⟨rfl, dbLookup_dbInsert_self db _ _⟩

set_option maxRecDepth 10000 in
/-- Witness for C10: declared length 5 with an actually-empty body is
accepted and the empty body's encoding is persisted. -/
theorem C10_size_policy_declared_only_witness :
    (store_record noFaults ⟨some [53], some [110], none⟩ (.ok []) []).outcome =
      .okResp (hexOfBytes (storeFp ⟨some [53], some [110], none⟩ [])) ∧
    dbLookup (store_record noFaults ⟨some [53], some [110], none⟩ (.ok []) []).db
      (storeFp ⟨some [53], some [110], none⟩ []) =
      some (storeEnc ⟨some [53], some [110], none⟩ []) :=
  (C10_size_policy_declared_only ⟨some [53], some [110], none⟩ [] [] 5
    (by decide) (by decide) (by decide) (by decide) rfl).2.2 rfl

end OssServer
